import Mathlib

/-!
Verification of the geospatial clustering and location-filter engine of the
`burning-events` repository against its natural-language specification.

The embedding translates the TypeScript sources
`src/hooks/useEventFilters.ts`, `src/hooks/useEventMarkers.ts` and
`src/lib/area-coordinates.ts` into Lean.  Conventions:

* JavaScript numbers are modelled as rationals (`ℚ`); the claims under
  study depend only on comparisons and on the field/branch structure of
  the code, never on transcendental values.
* The haversine distance `calculateDistance` is transcendental
  floating-point mathematics (`Math.sin`, `Math.cos`, `Math.atan2`,
  `Math.sqrt`), so it is modelled as an explicit parameter
  `dist : Coordinates → Coordinates → ℚ` threaded through every function
  that the source lets call it.  Every theorem below either holds for all
  `dist` or instantiates `dist` at inputs where the haversine value is
  forced (identical points have distance 0).
* JavaScript truthiness is modelled explicitly: an absent optional is
  falsy, the number 0 is falsy, the empty string is falsy, objects and
  arrays (including the empty array) are truthy.
* `Date.now()` is modelled as a `now : Nat` parameter of the marker
  builder.
-/

namespace BurningEvents

/-- The `LocationType` union type of `src/types/events.ts`:
`"exact" | "approximate"`. -/
inductive LocationType where
  | exact
  | approximate
deriving DecidableEq, Repr

/-- The `EventCategory` union type of `src/types/events.ts`.  Its values are
the six literal strings below; as JavaScript object keys they are non-empty
and non-numeric, so a record keyed by them preserves insertion order and is
always truthy, which the embedding relies on where noted. -/
inductive EventCategory where
  | conference
  | workshop
  | social
  | networking
  | meetup
  | webinar
deriving DecidableEq, Repr

/-- `Coordinates` of `src/types/events.ts`: `{ lat: number, lng: number }`,
numbers modelled as rationals. -/
structure Coordinates where
  lat : ℚ
  lng : ℚ
deriving DecidableEq, Repr

/-- The subset of the `Event` interface of `src/types/events.ts` that the
clustering and filtering engine reads (`id`, `category`, `coordinates`,
`area`, `locationType`).  `area` is an arbitrary string because the
resolver `getEventCoordinates` accepts `{ coordinates?; area?: string }`. -/
structure Event where
  id : String
  category : EventCategory
  coordinates : Option Coordinates
  area : Option String
  locationType : Option LocationType
deriving DecidableEq, Repr

/-- The `LocationFilter` interface of `src/types/events.ts`: all four fields
optional; `radius` is in kilometres. -/
structure LocationFilter where
  areas : Option (List String)
  center : Option Coordinates
  radius : Option ℚ
  includeApproximate : Option Bool
deriving DecidableEq, Repr

/-- JavaScript truthiness of an optional boolean (an absent field and
`false` are falsy). -/
def truthyOptBool : Option Bool → Bool
  | some b => b
  | none => false

/-- JavaScript truthiness of an optional string (absent and `""` are
falsy). -/
def truthyStr : Option String → Bool
  | some s => !(s == "")
  | none => false

/-- JavaScript truthiness of an optional number (absent and `0` are
falsy). -/
def truthyOptNum : Option ℚ → Bool
  | some r => decide (r ≠ 0)
  | none => false

/-- The event predicate inside `filterEventsByLocation`
(`src/hooks/useEventFilters.ts`, lines 95-136): the body of the arrow
function passed to `events.filter`.  `dist` stands for the file's
`calculateDistance` (haversine). -/
def passesLocationFilter (dist : Coordinates → Coordinates → ℚ)
    (locationFilter : LocationFilter) (event : Event) : Bool :=
  -- if (!event.coordinates && !event.area) return false;
  if !event.coordinates.isSome && !truthyStr event.area then false
  else
    -- const eventLocationType = event.locationType ?? 'approximate';
    let eventLocationType := event.locationType.getD LocationType.approximate
    -- if (eventLocationType === 'approximate' && !locationFilter.includeApproximate) return false;
    if decide (eventLocationType = LocationType.approximate)
        && !truthyOptBool locationFilter.includeApproximate then false
    else
      -- const hasAreaFilter = locationFilter.areas && locationFilter.areas.length > 0;
      let hasAreaFilter : Bool :=
        match locationFilter.areas with
        | some l => decide (0 < l.length)
        | none => false
      -- const hasRadiusFilter = locationFilter.center && locationFilter.radius;
      let hasRadiusFilter : Bool :=
        locationFilter.center.isSome && truthyOptNum locationFilter.radius
      -- if (!hasAreaFilter && !hasRadiusFilter) return true;
      if !hasAreaFilter && !hasRadiusFilter then true
      else
        -- if (hasAreaFilter && event.area) matchesAreaFilter = locationFilter.areas!.includes(event.area);
        let matchesAreaFilter : Bool :=
          if hasAreaFilter && truthyStr event.area then
            match event.area, locationFilter.areas with
            | some a, some l => l.contains a
            | _, _ => false
          else false
        -- if (hasRadiusFilter && event.coordinates)
        --   matchesRadiusFilter = calculateDistance(center, coordinates) <= radius;
        let matchesRadiusFilter : Bool :=
          if hasRadiusFilter && event.coordinates.isSome then
            match locationFilter.center, event.coordinates, locationFilter.radius with
            | some c, some ec, some r => decide (dist c ec ≤ r)
            | _, _, _ => false
          else false
        -- return matchesAreaFilter || matchesRadiusFilter;
        matchesAreaFilter || matchesRadiusFilter

/-- `filterEventsByLocation` of `src/hooks/useEventFilters.ts`. -/
def filterEventsByLocation (dist : Coordinates → Coordinates → ℚ)
    (events : List Event) (locationFilter : LocationFilter) : List Event :=
  events.filter (passesLocationFilter dist locationFilter)

/-- `toggleAreaSelection` of `src/hooks/useEventFilters.ts` (lines 192-218),
as a pure transition on the `location` component of the filter state. -/
def toggleAreaSelection (location : Option LocationFilter) (area : String) :
    Option LocationFilter :=
  -- const currentAreas = filters.location?.areas || [];
  -- (an array is truthy even when empty, so only a missing field falls back)
  let currentAreas := (location.bind LocationFilter.areas).getD []
  -- const isCurrentlySelected = currentAreas.includes(area);
  let isCurrentlySelected := currentAreas.contains area
  let newAreas :=
    if isCurrentlySelected then currentAreas.filter (fun a => a != area)
    else currentAreas ++ [area]
  -- if (newAreas.length === 0) updateFilter({ location: undefined });
  if newAreas.length = 0 then none
  else
    -- { ...filters.location, areas: newAreas, includeApproximate: true }
    some { areas := some newAreas
           center := location.bind LocationFilter.center
           radius := location.bind LocationFilter.radius
           includeApproximate := some true }

/-- `toggleCoordinateSelection` of `src/hooks/useEventFilters.ts`
(lines 220-249), as a pure transition on the `location` component.  The
source's default radius argument is 1. -/
def toggleCoordinateSelection (location : Option LocationFilter)
    (coordinates : Coordinates) (radius : ℚ) : Option LocationFilter :=
  -- const isCurrentlySelected = currentLocation?.center &&
  --   center.lat === coordinates.lat && center.lng === coordinates.lng;
  let isCurrentlySelected : Bool :=
    match location.bind LocationFilter.center with
    | some c => decide (c.lat = coordinates.lat) && decide (c.lng = coordinates.lng)
    | none => false
  if isCurrentlySelected then
    -- if (currentLocation?.areas && currentLocation.areas.length > 0)
    match location.bind LocationFilter.areas with
    | some l =>
        if 0 < l.length then
          some { areas := some l
                 center := none
                 radius := none
                 includeApproximate := some true }
        else none
    | none => none
  else
    -- { ...currentLocation, center, radius, includeApproximate: true }
    some { areas := location.bind LocationFilter.areas
           center := some coordinates
           radius := some radius
           includeApproximate := some true }

/-- The `AREA_CENTER_COORDINATES` record of `src/lib/area-coordinates.ts`:
canonical centre coordinates keyed by `SanFranciscoArea` slug, as an
association list in the source's key order. -/
def AREA_CENTER_COORDINATES : List (String × Coordinates) :=
  [ ("soma", ⟨37.7849, -122.4094⟩)
  , ("mission", ⟨37.7599, -122.4148⟩)
  , ("mission-bay", ⟨37.7665, -122.3927⟩)
  , ("castro", ⟨37.7609, -122.4350⟩)
  , ("nob-hill", ⟨37.7925, -122.4151⟩)
  , ("russian-hill", ⟨37.8014, -122.4161⟩)
  , ("north-beach", ⟨37.8066, -122.4105⟩)
  , ("chinatown", ⟨37.7941, -122.4078⟩)
  , ("financial", ⟨37.7946, -122.4006⟩)
  , ("union-square", ⟨37.7880, -122.4074⟩)
  , ("hayes-valley", ⟨37.7756, -122.4244⟩)
  , ("pacific-heights", ⟨37.7886, -122.4394⟩)
  , ("marina", ⟨37.8021, -122.4416⟩)
  , ("presidio", ⟨37.7989, -122.4662⟩)
  , ("richmond", ⟨37.7806, -122.4644⟩)
  , ("sunset", ⟨37.7436, -122.4814⟩)
  , ("haight", ⟨37.7692, -122.4481⟩)
  , ("potrero-hill", ⟨37.7587, -122.4037⟩)
  , ("dogpatch", ⟨37.7516, -122.3889⟩)
  , ("tenderloin", ⟨37.7835, -122.4134⟩)
  , ("civic-center", ⟨37.7799, -122.4187⟩)
  , ("western-addition", ⟨37.7842, -122.4331⟩)
  , ("fillmore", ⟨37.7842, -122.4331⟩)
  , ("japantown", ⟨37.7857, -122.4297⟩)
  , ("lower-haight", ⟨37.7720, -122.4361⟩)
  , ("glen-park", ⟨37.7337, -122.4336⟩)
  , ("bernal-heights", ⟨37.7441, -122.4156⟩)
  , ("outer-mission", ⟨37.7284, -122.4456⟩)
  , ("excelsior", ⟨37.7249, -122.4244⟩)
  , ("visitacion-valley", ⟨37.7178, -122.4039⟩)
  , ("bayview", ⟨37.7312, -122.3826⟩)
  , ("hunters-point", ⟨37.7312, -122.3826⟩) ]

/-- Total indexing `AREA_CENTER_COORDINATES[code]` for a key known to be
present, used by the database table below exactly where the source writes
`AREA_CENTER_COORDINATES['soma']` etc. -/
def areaCenterAt (code : String) : Coordinates :=
  (AREA_CENTER_COORDINATES.lookup code).getD ⟨0, 0⟩

/-- The `DATABASE_AREA_COORDINATES` record of `src/lib/area-coordinates.ts`:
free-text database area labels mapped to coordinates, in the source's key
order. -/
def DATABASE_AREA_COORDINATES : List (String × Coordinates) :=
  [ ("SOMA", areaCenterAt ("soma"))
  , ("Russian Hill", areaCenterAt ("russian-hill"))
  , ("Mission", areaCenterAt ("mission"))
  , ("Pacific Heights", areaCenterAt ("pacific-heights"))
  , ("Nob Hill", areaCenterAt ("nob-hill"))
  , ("Hayes Valley", areaCenterAt ("hayes-valley"))
  , ("Marina", areaCenterAt ("marina"))
  , ("Chinatown", areaCenterAt ("chinatown"))
  , ("Dogpatch", areaCenterAt ("dogpatch"))
  , ("North Beach", areaCenterAt ("north-beach"))
  , ("Haight Ashbury", areaCenterAt ("haight"))
  , ("Potrero Hill", areaCenterAt ("potrero-hill"))
  , ("Castro", areaCenterAt ("castro"))
  , ("Mission Bay", areaCenterAt ("mission-bay"))
  , ("Civic Center", areaCenterAt ("civic-center"))
  , ("Lower Haight", areaCenterAt ("lower-haight"))
  , ("Jackson Square", ⟨37.7957, -122.4024⟩)
  , ("FiDi (SF)", areaCenterAt ("financial"))
  , ("Downtown (SF)", ⟨37.7879, -122.4075⟩)
  , ("Duboce Triangle", ⟨37.7692, -122.4336⟩)
  , ("Union Square (SF)", areaCenterAt ("union-square"))
  , ("Embarcadero", ⟨37.7955, -122.3937⟩)
  , ("Golden Gate Park", ⟨37.7694, -122.4862⟩)
  , ("Ocean Beach", ⟨37.7544, -122.5108⟩)
  , ("Salesforce Park", ⟨37.7895, -122.3967⟩)
  , ("Virtual (SF)", areaCenterAt ("financial"))
  , ("Design District", areaCenterAt ("soma"))
  , ("Rincon Hill", ⟨37.7877, -122.3927⟩)
  , ("South Beach", ⟨37.7767, -122.3912⟩)
  , ("NOPA", ⟨37.7842, -122.4331⟩)
  , ("Fisherman\x27s Wharf", ⟨37.8080, -122.4177⟩)
  , ("Cow Hollow", ⟨37.7991, -122.4394⟩)
  , ("Telegraph Hill", ⟨37.8021, -122.4058⟩)
  , ("Presidio Heights", ⟨37.7886, -122.4549⟩)
  , ("Lower Nob Hill", ⟨37.7903, -122.4151⟩)
  , ("Alamo Square", ⟨37.7766, -122.4341⟩)
  , ("Culver City", ⟨34.0211, -118.3965⟩)
  , ("Venice", ⟨34.0195, -118.4912⟩)
  , ("Inglewood", ⟨33.9617, -118.3531⟩)
  , ("San Mateo", ⟨37.5630, -122.3255⟩)
  , ("Stanford", ⟨37.4275, -122.1697⟩)
  , ("Palo Alto", ⟨37.4419, -122.1430⟩)
  , ("Hillsborough", ⟨37.5747, -122.3480⟩)
  , ("Oyster Point", ⟨37.6647, -122.3927⟩)
  , ("Mountain View", ⟨37.3861, -122.0839⟩)
  , ("East Bay", ⟨37.8044, -122.2712⟩) ]

/-- `getAreaCoordinatesFlexible` of `src/lib/area-coordinates.ts`
(lines 110-122): first the database mapping (a present record value is a
truthy object), then the raw name as an `AREA_CENTER_COORDINATES` key,
otherwise null.  The source performs no normalization of `areaName`. -/
def getAreaCoordinatesFlexible (areaName : String) : Option Coordinates :=
  match DATABASE_AREA_COORDINATES.lookup areaName with
  | some c => some c
  | none => AREA_CENTER_COORDINATES.lookup areaName

/-- `getEventCoordinates` of `src/lib/area-coordinates.ts` (lines 127-137):
exact coordinates win; otherwise a truthy (non-empty) area string is
resolved flexibly; otherwise null. -/
def getEventCoordinates (event : Event) : Option Coordinates :=
  match event.coordinates with
  | some c => some c
  | none =>
      match event.area with
      | some a => if a == "" then none else getAreaCoordinatesFlexible a
      | none => none

/-- Modelled from the spec: the normalization step the specification
describes for flexible area resolution ("normalize `rawName` to lowercase
with internal whitespace runs replaced by a single hyphen"); this step is
absent from `getAreaCoordinatesFlexible` in `src/lib/area-coordinates.ts`,
and the definition exists only to state that divergence. -/
def specNormalizeAreaName (rawName : String) : String :=
  -- the semantics of `rawName.toLowerCase().replace(/\s+/g, "-")`:
  -- every maximal whitespace run becomes one hyphen, other characters are
  -- lowercased.  The boolean tracks whether the previous character was
  -- whitespace.
  let step := fun (acc : String × Bool) (ch : Char) =>
    if ch.isWhitespace then
      if acc.2 then acc else (acc.1.push '-', true)
    else (acc.1.push ch.toLower, false)
  (rawName.toList.foldl step ("", false)).1

/-- `areCoordinatesNear` of `src/lib/area-coordinates.ts` (lines 164-167):
`calculateDistance(coord1, coord2) * 1000 <= radiusMeters`, with the
haversine passed in as `dist`. -/
def areCoordinatesNear (dist : Coordinates → Coordinates → ℚ)
    (coord1 coord2 : Coordinates) (radiusMeters : ℚ) : Bool :=
  decide (dist coord1 coord2 * 1000 ≤ radiusMeters)

/-- The `ClusteredMarker` type of `src/hooks/useEventMarkers.ts`.
`primaryCategory` is typed `string` in the source but only ever holds
`EventCategory` values (it is initialised from `event.category` and
recomputed from member categories), so it is typed `EventCategory` here. -/
structure ClusteredMarker where
  id : String
  coordinates : Coordinates
  events : List Event
  isCluster : Bool
  locationType : LocationType
  primaryCategory : EventCategory
  area : Option String
  isSelected : Bool
deriving DecidableEq, Repr

/-- The `categoryCounts` computation of `src/hooks/useEventMarkers.ts`
(lines 51-54): a `reduce` into a record keyed by category.  JavaScript
records with non-numeric string keys enumerate in insertion order, so the
record is modelled as an association list to which unseen keys are
appended; `Object.entries` of the record is then the list itself. -/
def categoryCounts (events : List Event) : List (EventCategory × Nat) :=
  events.foldl
    (fun acc e =>
      if acc.any (fun p => p.1 == e.category) then
        acc.map (fun p => if p.1 == e.category then (p.1, p.2 + 1) else p)
      else acc ++ [(e.category, 1)])
    []

/-- One insertion step of the stable descending-by-count sort (see
`sortByCountDesc`). -/
def insertByCountDesc (x : EventCategory × Nat) :
    List (EventCategory × Nat) → List (EventCategory × Nat)
  | [] => [x]
  | y :: ys => if y.2 ≤ x.2 then x :: y :: ys else y :: insertByCountDesc x ys

/-- The `.sort(([,a],[,b]) => b - a)` call of `src/hooks/useEventMarkers.ts`
(line 56): `Array.prototype.sort` is stable (ECMAScript 2019) and the
comparator orders by count descending, which this stable insertion sort
implements: an element is placed before every later element with a
less-or-equal count, so elements with equal counts keep their relative
order. -/
def sortByCountDesc : List (EventCategory × Nat) → List (EventCategory × Nat)
  | [] => []
  | x :: xs => insertByCountDesc x (sortByCountDesc xs)

/-- The per-event selection match used by `useEventMarkers`
(`src/hooks/useEventMarkers.ts`, lines 43-45 and 59-61):
`event.area && selectedAreas.includes(event.area)`. -/
def isAreaSelectedFor (selectedAreas : List String) (event : Event) : Bool :=
  truthyStr event.area &&
    (match event.area with
     | some a => selectedAreas.contains a
     | none => false)

/-- The per-event coordinate selection match used by `useEventMarkers`:
`selectedCoordinates && areCoordinatesNear(coordinates, selectedCoordinates, 50)`
with the fixed 50-metre tolerance. -/
def isCoordinateSelectedFor (dist : Coordinates → Coordinates → ℚ)
    (selectedCoordinates : Option Coordinates) (coordinates : Coordinates) : Bool :=
  match selectedCoordinates with
  | some sc => areCoordinatesNear dist coordinates sc 50
  | none => false

/-- The then-branch of `useEventMarkers` (`src/hooks/useEventMarkers.ts`,
lines 37-56): mutate the existing marker found within the cluster radius by
appending the event, recomputing `isCluster`, OR-ing in the event's own
selection match, and recomputing `primaryCategory` as
`Object.entries(categoryCounts).sort(([,a],[,b]) => b - a)[0]?.[0] || existing`.
The `|| existing` fallback fires only when the sorted list is empty, since
an `EventCategory` key is a non-empty (truthy) string. -/
def markerUpdateForEvent (dist : Coordinates → Coordinates → ℚ)
    (selectedAreas : List String) (selectedCoordinates : Option Coordinates)
    (event : Event) (coordinates : Coordinates) (marker : ClusteredMarker) :
    ClusteredMarker :=
  let newEvents := marker.events ++ [event]
  { marker with
      events := newEvents
      isCluster := decide (1 < newEvents.length)
      isSelected :=
        if isAreaSelectedFor selectedAreas event ||
            isCoordinateSelectedFor dist selectedCoordinates coordinates then
          true
        else marker.isSelected
      primaryCategory :=
        ((sortByCountDesc (categoryCounts newEvents)).head?.map Prod.fst).getD
          marker.primaryCategory }

/-- The else-branch of `useEventMarkers` (`src/hooks/useEventMarkers.ts`,
lines 57-73): create a fresh marker for the event, with
`id = marker-<eventId>-<Date.now()>` (wall-clock modelled as `now`). -/
def newMarkerForEvent (dist : Coordinates → Coordinates → ℚ)
    (selectedAreas : List String) (selectedCoordinates : Option Coordinates)
    (now : Nat) (event : Event) (coordinates : Coordinates) : ClusteredMarker :=
  { id := "marker-" ++ event.id ++ "-" ++ Nat.repr now
    coordinates := coordinates
    events := [event]
    isCluster := false
    locationType :=
      if event.coordinates.isSome then LocationType.exact
      else LocationType.approximate
    primaryCategory := event.category
    area := event.area
    isSelected :=
      isAreaSelectedFor selectedAreas event ||
        isCoordinateSelectedFor dist selectedCoordinates coordinates }

/-- Replace the first element satisfying `p` by its image under `f`,
returning `none` when no element matches: the functional reading of
`markers.find(...)` followed by in-place mutation of the found object. -/
def updateFirstMatch {α : Type} (p : α → Bool) (f : α → α) :
    List α → Option (List α)
  | [] => none
  | x :: xs =>
      if p x then some (f x :: xs)
      else (updateFirstMatch p f xs).map (fun l => x :: l)

/-- The loop body of `useEventMarkers` (`src/hooks/useEventMarkers.ts`,
lines 28-74): resolve the event's coordinate (skipping the event when
resolution fails), then either join the first marker within
`clusterRadius` or append a new marker. -/
def useEventMarkersStep (dist : Coordinates → Coordinates → ℚ)
    (clusterRadius : ℚ) (selectedAreas : List String)
    (selectedCoordinates : Option Coordinates) (now : Nat)
    (markers : List ClusteredMarker) (event : Event) : List ClusteredMarker :=
  match getEventCoordinates event with
  | none => markers
  | some coordinates =>
      match updateFirstMatch
          (fun m => areCoordinatesNear dist m.coordinates coordinates clusterRadius)
          (markerUpdateForEvent dist selectedAreas selectedCoordinates event coordinates)
          markers with
      | some ms => ms
      | none =>
          markers ++
            [newMarkerForEvent dist selectedAreas selectedCoordinates now event coordinates]

/-- `useEventMarkers` of `src/hooks/useEventMarkers.ts` (lines 19-78): a
single pass over the events in input order, starting from an empty marker
list.  The source's defaults are `clusterRadius = 100`, `selectedAreas = []`,
`selectedCoordinates = undefined`. -/
def useEventMarkers (dist : Coordinates → Coordinates → ℚ)
    (events : List Event) (clusterRadius : ℚ) (selectedAreas : List String)
    (selectedCoordinates : Option Coordinates) (now : Nat) :
    List ClusteredMarker :=
  events.foldl
    (useEventMarkersStep dist clusterRadius selectedAreas selectedCoordinates now)
    []

/-- Index of the first element satisfying `p`, used to state which marker an
event joins. -/
def findFirstIdx {α : Type} (p : α → Bool) : List α → Option Nat
  | [] => none
  | x :: xs => if p x then some 0 else (findFirstIdx p xs).map (· + 1)

/-- A marker with its nondeterministic wall-clock id blanked, for stating
which marker fields are a function of the inputs alone. -/
def eraseMarkerId (m : ClusteredMarker) : ClusteredMarker :=
  { m with id := "" }

/-- Number of members of `l` having category `c`. -/
def countCat (l : List Event) (c : EventCategory) : Nat :=
  (l.filter (fun e => e.category == c)).length

/-! ### Concrete fixtures shared by witnesses and counterexamples -/

/-- A distance function used to instantiate the haversine parameter at
inputs where its value is forced: the haversine of two identical points is
0, and every concrete instantiation below only ever evaluates the distance
on identical points (or on branches where the value is irrelevant). -/
def distZero : Coordinates → Coordinates → ℚ := fun _ _ => 0

/-- An event located only by the area `"mission"`, with `locationType`
unset (hence treated as approximate by the filter). -/
def evMissionApprox : Event :=
  { id := "e1", category := EventCategory.conference, coordinates := none
    area := some "mission", locationType := none }

/-- An event with exact coordinates at the origin. -/
def evExactOrigin : Event :=
  { id := "e2", category := EventCategory.workshop
    coordinates := some ⟨0, 0⟩, area := none
    locationType := some LocationType.exact }

/-- A second event with exact coordinates at the origin. -/
def evExactOrigin2 : Event :=
  { id := "e3", category := EventCategory.social
    coordinates := some ⟨0, 0⟩, area := none
    locationType := some LocationType.exact }

/-- The empty `LocationFilter {}`: every field absent. -/
def emptyLocationFilter : LocationFilter :=
  { areas := none, center := none, radius := none, includeApproximate := none }

/-- A filter with a centre at the origin and a negative radius. -/
def negRadiusFilter : LocationFilter :=
  { areas := none, center := some ⟨0, 0⟩, radius := some (-1)
    includeApproximate := some true }

/-! ### C1 -/

/-- C1, counterexample: the event `evMissionApprox` has spatial data (a
truthy `area`), yet `passes` on the empty `LocationFilter {}` returns
`false`, because an absent `includeApproximate` is falsy in
`filterEventsByLocation` — there is no default of `true` applied at
evaluation.  The distance function is never consulted on this branch. -/
theorem emptyFilterExcludesApproximateEvent :
    truthyStr evMissionApprox.area = true ∧
    passesLocationFilter distZero emptyLocationFilter evMissionApprox = false := by
  decide

/-- C1, amended: any event with spatial data passes a `LocationFilter` with
no `areas` and no `center`/`radius`, provided the filter sets
`includeApproximate` to `true` or the event's effective location type is
exact; the empty filter `{}` (with `includeApproximate` absent, hence
falsy) excludes approximate-location events. -/
theorem passThroughRequiresIncludeApproximateOrExact
    (dist : Coordinates → Coordinates → ℚ) (f : LocationFilter) (e : Event)
    (hAreas : f.areas = none) (hCenter : f.center = none)
    (hSpatial : (e.coordinates.isSome || truthyStr e.area) = true)
    (hApprox : f.includeApproximate = some true ∨
      e.locationType.getD LocationType.approximate = LocationType.exact) :
    passesLocationFilter dist f e = true := by
  have h1 : (!e.coordinates.isSome && !truthyStr e.area) = false := by
    rcases Bool.or_eq_true_iff.mp hSpatial with h | h <;> simp [h]
  have h2 : (decide (e.locationType.getD LocationType.approximate =
      LocationType.approximate) && !truthyOptBool f.includeApproximate) = false := by
    rcases hApprox with hi | hl
    · simp [hi, truthyOptBool]
    · simp [hl]
  unfold passesLocationFilter
  rw [hAreas, hCenter]
  simp only [h1, h2, truthyOptNum]
  rcases Bool.or_eq_true_iff.mp hSpatial with h | h
  · simp [Option.isSome_iff_ne_none.mp h]
  · simp [h]

/-- C1, witness for the amended theorem: the approximate `mission` event
passes the no-area no-radius filter once `includeApproximate` is `true`. -/
theorem passThroughWitness :
    passesLocationFilter distZero
      { areas := none, center := none, radius := none
        includeApproximate := some true } evMissionApprox = true :=
  passThroughRequiresIncludeApproximateOrExact distZero
    { areas := none, center := none, radius := none
      includeApproximate := some true }
    evMissionApprox rfl rfl (by decide) (Or.inl rfl)

/-! ### C2 -/

/-- C2, counterexample: `"Glen Park"` is not a key of the free-text alias
table, its spec-described normalization is the registered code
`"glen-park"`, yet `getAreaCoordinatesFlexible "Glen Park"` is `null`:
the source retries the raw name unchanged and performs no normalization. -/
theorem glenParkNotResolvedWithoutNormalization :
    DATABASE_AREA_COORDINATES.lookup ("Glen Park") = none ∧
    specNormalizeAreaName ("Glen Park") = "glen-park" ∧
    (AREA_CENTER_COORDINATES.lookup ("glen-park")).isSome = true ∧
    getAreaCoordinatesFlexible ("Glen Park") = none := by
  refine ⟨by decide, by decide, by decide, ?_⟩
  decide

/-- C2, amended: for every `rawName` that is not an exact key of the
free-text alias table, `getAreaCoordinatesFlexible` retries the raw string
*unchanged* as an `AREA_CENTER_COORDINATES` key (no lowercasing, no
whitespace-to-hyphen rewriting), so only a raw name that is literally a
registered `AreaCode` resolves; all others return `null`. -/
theorem flexibleResolutionRetriesRawNameUnchanged (rawName : String)
    (h : DATABASE_AREA_COORDINATES.lookup rawName = none) :
    getAreaCoordinatesFlexible rawName =
      AREA_CENTER_COORDINATES.lookup rawName := by
  unfold getAreaCoordinatesFlexible
  rw [h]

/-- C2, witness for the amended theorem at `rawName = "glen-park"`. -/
theorem flexibleResolutionRetryWitness :
    getAreaCoordinatesFlexible ("glen-park") =
      AREA_CENTER_COORDINATES.lookup ("glen-park") :=
  flexibleResolutionRetriesRawNameUnchanged "glen-park" (by decide)

/-! ### C3 -/

/-- C3, counterexample: a filter whose `center` is present with
`radius = -1 <= 0` does **not** behave as if the radius filter were
inactive: the event at the very centre (haversine distance 0, which is the
value `distZero` returns on identical points) has spatial data yet is
excluded, because `-1` is truthy in
`hasRadiusFilter = locationFilter.center && locationFilter.radius` and no
distance is `<= -1`. -/
theorem negativeRadiusFilterExcludesEvent :
    evExactOrigin.coordinates.isSome = true ∧
    passesLocationFilter distZero negRadiusFilter evExactOrigin = false := by
  decide

/-- C3, amended: only `radius = 0` (or an absent radius) is treated as
"radius filter inactive" — evaluation with `radius: 0` coincides with
evaluation with the radius absent for every filter and event.  A negative
`radius` instead leaves the radius filter active: since haversine distances
are nonnegative, nothing matches it, and with no areas set an event with
exact coordinates is excluded rather than passed. -/
theorem zeroRadiusInactiveNegativeRadiusActive :
    (∀ (dist : Coordinates → Coordinates → ℚ) (f : LocationFilter) (e : Event),
      passesLocationFilter dist { f with radius := some 0 } e =
        passesLocationFilter dist { f with radius := none } e) ∧
    (∀ (dist : Coordinates → Coordinates → ℚ) (f : LocationFilter) (e : Event)
      (r : ℚ), r < 0 → f.radius = some r → f.center.isSome = true →
      f.areas = none → e.coordinates.isSome = true →
      (∀ a b, 0 ≤ dist a b) →
      passesLocationFilter dist f e = false) := by
  constructor
  · intro dist f e
    simp only [passesLocationFilter, truthyOptNum]
    norm_num
  · intro dist f e r hr hrad hcen hareas hcoords hnn
    obtain ⟨ec, hec⟩ := Option.isSome_iff_exists.mp hcoords
    obtain ⟨c, hc⟩ := Option.isSome_iff_exists.mp hcen
    have hne : r ≠ 0 := ne_of_lt hr
    have hdist : ¬ (dist c ec ≤ r) := fun hle =>
      absurd (lt_of_le_of_lt hle hr) (not_lt.mpr (hnn c ec))
    unfold passesLocationFilter
    rw [hareas, hrad, hec, hc]
    simp [truthyOptNum, hne, hdist, truthyStr, truthyOptBool]

/-- C3, witness for the amended theorem: both conjuncts applied at the
origin event, with `distZero` (which agrees with the haversine on the
identical points actually compared). -/
theorem radiusEdgeWitness :
    (passesLocationFilter distZero
        { negRadiusFilter with radius := some 0 } evExactOrigin =
      passesLocationFilter distZero
        { negRadiusFilter with radius := none } evExactOrigin) ∧
    passesLocationFilter distZero negRadiusFilter evExactOrigin = false :=
  ⟨zeroRadiusInactiveNegativeRadiusActive.1 distZero negRadiusFilter evExactOrigin,
   zeroRadiusInactiveNegativeRadiusActive.2 distZero negRadiusFilter evExactOrigin
     (-1) (by norm_num) rfl rfl rfl rfl (fun _ _ => le_refl 0)⟩

/-! ### C7, C9 -/

/-- A selection state with the single area `"mission"` and an active
centre/radius, as produced by `toggleArea("mission")` followed by
`toggleCenter({lat:1,lng:1}, 2)`. -/
def locMissionWithCenter : Option LocationFilter :=
  some { areas := some ["mission"], center := some ⟨1, 1⟩, radius := some 2
         includeApproximate := some true }

/-- C7: `toggleArea(code)` toggles membership of `code` in the selected
areas; when the resulting area list is empty the whole location filter
becomes `undefined` (clearing any centre/radius), and when it is non-empty
the existing centre and radius are carried over unchanged.  The final
conjunct is concrete scenario E: areas `{"mission"}`, then
`toggleCenter({lat:1,lng:1}, 2)`, then `toggleArea("mission")` leaves a
fully empty selection. -/
theorem toggleAreaTransition (location : Option LocationFilter) (area : String) :
    (area ∈ ((toggleAreaSelection location area).bind LocationFilter.areas).getD [] ↔
      ¬ area ∈ (location.bind LocationFilter.areas).getD []) ∧
    (toggleAreaSelection location area = none ↔
      ((location.bind LocationFilter.areas).getD []).contains area = true ∧
      ((location.bind LocationFilter.areas).getD []).filter (fun a => a != area) = []) ∧
    (∀ f', toggleAreaSelection location area = some f' →
      f'.center = location.bind LocationFilter.center ∧
      f'.radius = location.bind LocationFilter.radius) ∧
    toggleAreaSelection
      (toggleCoordinateSelection
        (some { areas := some ["mission"], center := none, radius := none
                includeApproximate := some true }) ⟨1, 1⟩ 2) ("mission") = none := by
  set cA := (location.bind LocationFilter.areas).getD [] with hcA
  have hunf : toggleAreaSelection location area =
      (if (if cA.contains area then cA.filter (fun a => a != area)
            else cA ++ [area]).length = 0
       then none
       else some { areas := some (if cA.contains area then
                      cA.filter (fun a => a != area) else cA ++ [area])
                   center := location.bind LocationFilter.center
                   radius := location.bind LocationFilter.radius
                   includeApproximate := some true }) := rfl
  refine ⟨?_, ?_, ?_, by decide⟩
  · by_cases hmem : cA.contains area = true
    · have hin : area ∈ cA := List.elem_iff.mp hmem
      by_cases hemp : (cA.filter (fun a => a != area)).length = 0
      · rw [hunf, if_pos hmem, if_pos hemp]
        exact ⟨fun h => absurd h (List.not_mem_nil area),
               fun hcon => absurd hin hcon⟩
      · rw [hunf, if_pos hmem, if_neg hemp]
        simp [List.mem_filter, hin]
    · have hnin : ¬ area ∈ cA := fun hin => hmem (List.elem_iff.mpr hin)
      have hlen : ¬ (cA ++ [area]).length = 0 := by simp
      rw [hunf, if_neg hmem, if_neg hlen]
      exact ⟨fun _ => hnin, fun _ => by simp⟩
  · by_cases hmem : cA.contains area = true
    · by_cases hemp : (cA.filter (fun a => a != area)).length = 0
      · rw [hunf, if_pos hmem, if_pos hemp]
        simp [List.length_eq_zero.mp hemp, List.elem_iff.mp hmem]
      · rw [hunf, if_pos hmem, if_neg hemp]
        have hne : ¬ cA.filter (fun a => a != area) = [] := fun h =>
          hemp (by simp [h])
        simp [hmem, hne]
    · have hnin : ¬ area ∈ cA := fun hin => hmem (List.elem_iff.mpr hin)
      have hlen : ¬ (cA ++ [area]).length = 0 := by simp
      rw [hunf, if_neg hmem, if_neg hlen]
      simp [hnin]
  · intro f' hf'
    rw [hunf] at hf'
    by_cases hmem : cA.contains area = true
    · by_cases hemp : (cA.filter (fun a => a != area)).length = 0
      · rw [if_pos hmem, if_pos hemp] at hf'
        exact absurd hf' (by simp)
      · rw [if_pos hmem, if_neg hemp] at hf'
        injection hf' with h
        subst h
        exact ⟨rfl, rfl⟩
    · have hlen : ¬ (cA ++ [area]).length = 0 := by simp
      rw [if_neg hmem, if_neg hlen] at hf'
      injection hf' with h
      subst h
      exact ⟨rfl, rfl⟩

/-- C7, witness: applying the transition theorem at a concrete two-area
state shows the centre and radius survive removing one of two areas. -/
theorem toggleAreaTransitionWitness :
    (LocationFilter.center
        { areas := some ["mission"], center := some ⟨1, 1⟩, radius := some 2
          includeApproximate := some true } =
      Option.bind
        (some { areas := some ["castro", "mission"], center := some ⟨1, 1⟩
                radius := some 2, includeApproximate := some true })
        LocationFilter.center) ∧
    (LocationFilter.radius
        { areas := some ["mission"], center := some ⟨1, 1⟩, radius := some 2
          includeApproximate := some true } =
      Option.bind
        (some { areas := some ["castro", "mission"], center := some ⟨1, 1⟩
                radius := some 2, includeApproximate := some true })
        LocationFilter.radius) :=
  (toggleAreaTransition
      (some { areas := some ["castro", "mission"], center := some ⟨1, 1⟩
              radius := some 2, includeApproximate := some true })
      "castro").2.2.1
    { areas := some ["mission"], center := some ⟨1, 1⟩, radius := some 2
      includeApproximate := some true }
    (by decide)

/-- C9: toggling the same area twice is *not* a round trip for the whole
selection state: from `selectedAreas = ["mission"]` with an active
centre/radius, `toggleArea "mission"` clears everything (first conjunct),
and repeating it restores the area but leaves the centre and radius
cleared, so the final state differs from the initial one. -/
theorem toggleAreaPairNotFullRoundTrip :
    toggleAreaSelection locMissionWithCenter ("mission") = none ∧
    toggleAreaSelection
        (toggleAreaSelection locMissionWithCenter ("mission")) ("mission") =
      some { areas := some ["mission"], center := none, radius := none
             includeApproximate := some true } ∧
    toggleAreaSelection
        (toggleAreaSelection locMissionWithCenter ("mission")) ("mission") ≠
      locMissionWithCenter := by
  decide

/-! ### C8 -/

/-- C8: with the same `includeApproximate` setting across the three
filters, an event passing the area-only filter (non-empty area set `A`) or
the radius-only filter (centre `c`, truthy radius `r`) also passes the
composite filter carrying both — `matchesArea OR matchesRadius` never
narrows the passing set. -/
theorem locationFilterUnionSuperset (dist : Coordinates → Coordinates → ℚ)
    (e : Event) (A : List String) (c : Coordinates) (r : ℚ) (inc : Option Bool)
    (hA : A ≠ []) (hr : r ≠ 0)
    (h : passesLocationFilter dist
          { areas := some A, center := none, radius := none
            includeApproximate := inc } e = true ∨
        passesLocationFilter dist
          { areas := none, center := some c, radius := some r
            includeApproximate := inc } e = true) :
    passesLocationFilter dist
      { areas := some A, center := some c, radius := some r
        includeApproximate := inc } e = true := by
  have hAl : decide (0 < A.length) = true := by
    rcases A with _ | ⟨x, xs⟩
    · exact absurd rfl hA
    · simp
  by_cases hg1 : (!e.coordinates.isSome && !truthyStr e.area) = true
  · rcases h with h | h <;>
      (unfold passesLocationFilter at h; rw [if_pos hg1] at h; exact absurd h (by simp))
  by_cases hg2 : (decide (e.locationType.getD LocationType.approximate =
      LocationType.approximate) && !truthyOptBool inc) = true
  · rcases h with h | h <;>
      (unfold passesLocationFilter at h
       rw [if_neg hg1, if_pos hg2] at h
       exact absurd h (by simp))
  unfold passesLocationFilter at h ⊢
  rw [if_neg hg1, if_neg hg2]
  simp only [hAl, truthyOptNum, Option.isSome_some, Option.isSome_none,
    Bool.true_and, Bool.false_and, Bool.and_false, Bool.and_true,
    Bool.not_true, Bool.not_false, hr, ne_eq, not_false_iff, decide_True] at *
  rcases h with h | h
  · rw [if_neg hg1, if_neg hg2] at h
    simp at h
    simp [h]
  · rw [if_neg hg1, if_neg hg2] at h
    simp at h
    simp [h]

/-- C8, witness: the approximate `mission` event passes the area-only
filter, hence also the composite filter with both sub-filters active. -/
theorem locationFilterUnionSupersetWitness :
    passesLocationFilter distZero
      { areas := some ["mission"], center := some ⟨0, 0⟩, radius := some 1
        includeApproximate := some true } evMissionApprox = true :=
  locationFilterUnionSuperset distZero evMissionApprox ["mission"] ⟨0, 0⟩ 1
    (some true) (by decide) (by norm_num) (Or.inl (by decide))

/-! ### Support lemmas for the cluster builder -/

/-- `updateFirstMatch` fails exactly when no element matches. -/
theorem updateFirstMatch_eq_none_iff {α : Type} (p : α → Bool) (f : α → α)
    (l : List α) :
    updateFirstMatch p f l = none ↔ findFirstIdx p l = none := by
  induction l with
  | nil => simp [updateFirstMatch, findFirstIdx]
  | cons x xs ih =>
      by_cases h : p x
      · simp [updateFirstMatch, findFirstIdx, h]
      · simp [updateFirstMatch, findFirstIdx, h, ih]

/-- When the first match sits at index `i` holding `m`, `updateFirstMatch`
returns the list with exactly position `i` replaced by `f m`. -/
theorem updateFirstMatch_of_findFirstIdx {α : Type} (p : α → Bool) (f : α → α) :
    ∀ (l : List α) (i : Nat) (m : α), findFirstIdx p l = some i →
      l[i]? = some m →
      ∃ l', updateFirstMatch p f l = some l' ∧ l'.length = l.length ∧
        ∀ j, l'[j]? = if j = i then some (f m) else l[j]? := by
  intro l
  induction l with
  | nil => intro i m hidx _; simp [findFirstIdx] at hidx
  | cons x xs ih =>
      intro i m hidx hm
      by_cases h : p x
      · have hi : i = 0 := by
          simp [findFirstIdx, h] at hidx
          omega
        subst hi
        have hmx : m = x := by
          simp at hm
          exact hm.symm
        subst hmx
        refine ⟨f m :: xs, by simp [updateFirstMatch, h], by simp, ?_⟩
        intro j
        cases j with
        | zero => simp
        | succ k => simp [Nat.succ_ne_zero]
      · have hrec : findFirstIdx p (x :: xs) = (findFirstIdx p xs).map (· + 1) := by
          simp [findFirstIdx, h]
        rw [hrec] at hidx
        cases hfx : findFirstIdx p xs with
        | none => rw [hfx] at hidx; simp at hidx
        | some i' =>
        rw [hfx] at hidx
        simp only [Option.map_some', Option.some.injEq] at hidx
        subst hidx
        have hidx' : findFirstIdx p xs = some i' := hfx
        have hm' : xs[i']? = some m := by simpa using hm
        obtain ⟨l'', hupd, hlen, hget⟩ := ih i' m hidx' hm'
        refine ⟨x :: l'', ?_, by simp [hlen], ?_⟩
        · simp [updateFirstMatch, h, hupd]
        · intro j
          cases j with
          | zero => simp [Nat.succ_ne_zero]
          | succ k =>
              simp only [List.getElem?_cons_succ]
              rw [hget k]
              by_cases hk : k = i'
              · simp [hk]
              · simp [hk, fun hcon => hk (Nat.succ_injective hcon)]

/-- The builder's step skips an event whose coordinate resolution fails. -/
theorem useEventMarkersStep_resolve_none (dist : Coordinates → Coordinates → ℚ)
    (r : ℚ) (sel : List String) (sc : Option Coordinates) (now : Nat)
    (ms : List ClusteredMarker) (e : Event)
    (h : getEventCoordinates e = none) :
    useEventMarkersStep dist r sel sc now ms e = ms := by
  unfold useEventMarkersStep
  rw [h]

/-- The builder's step on a resolved event, with the outer match reduced. -/
theorem useEventMarkersStep_resolve_some (dist : Coordinates → Coordinates → ℚ)
    (r : ℚ) (sel : List String) (sc : Option Coordinates) (now : Nat)
    (ms : List ClusteredMarker) (e : Event) (c : Coordinates)
    (h : getEventCoordinates e = some c) :
    useEventMarkersStep dist r sel sc now ms e =
      (match updateFirstMatch
          (fun m => areCoordinatesNear dist m.coordinates c r)
          (markerUpdateForEvent dist sel sc e c) ms with
       | some l => l
       | none => ms ++ [newMarkerForEvent dist sel sc now e c]) := by
  unfold useEventMarkersStep
  rw [h]

/-! ### C5 -/

/-- C5: appending one event to the input characterizes the builder's step:
an event whose coordinate resolution fails leaves the markers unchanged; a
resolved event joins the *first* marker (in creation order) whose
coordinates lie within `clusterRadius` — every marker keeps its coordinates
and only that marker's member list gets the event appended — and when no
marker qualifies, a new marker whose coordinates equal the resolved
coordinate is appended at the end. -/
theorem clusterStepAppend (dist : Coordinates → Coordinates → ℚ) (r : ℚ)
    (sel : List String) (sc : Option Coordinates) (now : Nat)
    (es : List Event) (e : Event) :
    (getEventCoordinates e = none →
      useEventMarkers dist (es ++ [e]) r sel sc now =
        useEventMarkers dist es r sel sc now) ∧
    (∀ c, getEventCoordinates e = some c →
      (findFirstIdx (fun m => areCoordinatesNear dist m.coordinates c r)
          (useEventMarkers dist es r sel sc now) = none →
        useEventMarkers dist (es ++ [e]) r sel sc now =
          useEventMarkers dist es r sel sc now ++
            [newMarkerForEvent dist sel sc now e c]) ∧
      (∀ i m,
        findFirstIdx (fun m => areCoordinatesNear dist m.coordinates c r)
            (useEventMarkers dist es r sel sc now) = some i →
        (useEventMarkers dist es r sel sc now)[i]? = some m →
        (useEventMarkers dist (es ++ [e]) r sel sc now).length =
          (useEventMarkers dist es r sel sc now).length ∧
        (∀ (j : Nat), (useEventMarkers dist (es ++ [e]) r sel sc now)[j]?.map
            ClusteredMarker.coordinates =
          (useEventMarkers dist es r sel sc now)[j]?.map
            ClusteredMarker.coordinates) ∧
        (∀ (j : Nat), (useEventMarkers dist (es ++ [e]) r sel sc now)[j]?.map
            ClusteredMarker.events =
          (useEventMarkers dist es r sel sc now)[j]?.map
            (fun mk => mk.events ++ if j = i then [e] else [])))) := by
  have hstep : useEventMarkers dist (es ++ [e]) r sel sc now =
      useEventMarkersStep dist r sel sc now
        (useEventMarkers dist es r sel sc now) e := by
    unfold useEventMarkers
    rw [List.foldl_append, List.foldl_cons, List.foldl_nil]
  refine ⟨?_, ?_⟩
  · intro hnone
    rw [hstep]
    exact useEventMarkersStep_resolve_none dist r sel sc now _ e hnone
  · intro c hc
    constructor
    · intro hnone
      rw [hstep, useEventMarkersStep_resolve_some dist r sel sc now _ e c hc,
        (updateFirstMatch_eq_none_iff _ _ _).mpr hnone]
    · intro i m hidx hm
      obtain ⟨l', hupd, hlen, hget⟩ :=
        updateFirstMatch_of_findFirstIdx
          (fun m => areCoordinatesNear dist m.coordinates c r)
          (markerUpdateForEvent dist sel sc e c)
          (useEventMarkers dist es r sel sc now) i m hidx hm
      have hnew : useEventMarkers dist (es ++ [e]) r sel sc now = l' := by
        rw [hstep, useEventMarkersStep_resolve_some dist r sel sc now _ e c hc,
          hupd]
      rw [hnew]
      refine ⟨hlen, ?_, ?_⟩
      · intro j
        rw [hget j]
        by_cases hj : j = i
        · subst hj
          rw [hm]
          simp [markerUpdateForEvent]
        · simp [hj]
      · intro j
        rw [hget j]
        by_cases hj : j = i
        · subst hj
          rw [hm]
          simp [markerUpdateForEvent]
        · cases hx : (useEventMarkers dist es r sel sc now)[j]? with
          | none => simp [hj]
          | some mk => simp [hj]

/-- C5, witness: two exact-coordinate events at the origin with
`clusterRadius = 100`; the second event joins the first event's marker, so
the marker count is unchanged. -/
theorem clusterStepAppendWitness :
    (useEventMarkers distZero ([evExactOrigin] ++ [evExactOrigin2]) 100 [] none 0).length =
      (useEventMarkers distZero [evExactOrigin] 100 [] none 0).length :=
  (((clusterStepAppend distZero 100 [] none 0 [evExactOrigin]
        evExactOrigin2).2 ⟨0, 0⟩ rfl).2 0
    (newMarkerForEvent distZero [] none 0 evExactOrigin ⟨0, 0⟩)
    (by
      have hnear : areCoordinatesNear distZero
          (newMarkerForEvent distZero [] none 0 evExactOrigin ⟨0, 0⟩).coordinates
          ⟨0, 0⟩ 100 = true := decide_eq_true (by norm_num [distZero])
      show findFirstIdx _
          [newMarkerForEvent distZero [] none 0 evExactOrigin ⟨0, 0⟩] = some 0
      simp [findFirstIdx, hnear])
    rfl).1

/-! ### Support lemmas for the majority vote (C6) -/

/-- Index of the first member of `l` whose category is `cat`. -/
def firstIdxCat (l : List Event) (cat : EventCategory) : Nat :=
  l.findIdx (fun x => x.category == cat)

/-- Head of a stable descending insertion. -/
theorem head?_insertByCountDesc (x : EventCategory × Nat)
    (l : List (EventCategory × Nat)) :
    (insertByCountDesc x l).head? =
      some (match l.head? with
            | none => x
            | some y => if y.2 ≤ x.2 then x else y) := by
  cases l with
  | nil => rfl
  | cons y ys => by_cases h : y.2 ≤ x.2 <;> simp [insertByCountDesc, h]

/-- The head of the stable descending sort is the element at the least
index attaining the maximal count: it dominates every element, and every
element strictly before its original position has a strictly smaller
count. -/
theorem sortByCountDesc_head_spec :
    ∀ (l : List (EventCategory × Nat)), l ≠ [] →
      ∃ (k : Nat) (mx : EventCategory × Nat),
        (sortByCountDesc l).head? = some mx ∧ l[k]? = some mx ∧
        (∀ (j : Nat) (y : EventCategory × Nat), l[j]? = some y → y.2 ≤ mx.2) ∧
        (∀ (j : Nat) (y : EventCategory × Nat), l[j]? = some y → j < k →
          y.2 < mx.2) := by
  intro l
  induction l with
  | nil => intro h; cases h rfl
  | cons x xs ih =>
      intro _
      by_cases hxs : xs = []
      · subst hxs
        refine ⟨0, x, by simp [sortByCountDesc, insertByCountDesc], by simp, ?_, ?_⟩
        · intro j y hy
          cases j with
          | zero => simp at hy; simp [hy]
          | succ k => simp at hy
        · intro j y _ hj
          omega
      · obtain ⟨k', mx', hhead', hk', hmax', hfirst'⟩ := ih hxs
        have hsort : sortByCountDesc (x :: xs) = insertByCountDesc x (sortByCountDesc xs) := rfl
        by_cases hcmp : mx'.2 ≤ x.2
        · refine ⟨0, x, ?_, by simp, ?_, ?_⟩
          · rw [hsort, head?_insertByCountDesc, hhead']
            simp [hcmp]
          · intro j y hy
            cases j with
            | zero => simp at hy; simp [hy]
            | succ k =>
                simp only [List.getElem?_cons_succ] at hy
                exact le_trans (hmax' k y hy) hcmp
          · intro j y _ hj
            omega
        · refine ⟨k' + 1, mx', ?_, by simpa using hk', ?_, ?_⟩
          · rw [hsort, head?_insertByCountDesc, hhead']
            simp [hcmp]
          · intro j y hy
            cases j with
            | zero =>
                simp at hy
                subst hy
                omega
            | succ k =>
                simp only [List.getElem?_cons_succ] at hy
                exact hmax' k y hy
          · intro j y hy hj
            cases j with
            | zero =>
                simp at hy
                subst hy
                omega
            | succ k =>
                simp only [List.getElem?_cons_succ] at hy
                exact hfirst' k y hy (Nat.lt_of_succ_lt_succ hj)

/-- Appending one event bumps the count of its category by one and leaves
other counts alone. -/
theorem countCat_append_singleton (l : List Event) (e : Event)
    (c : EventCategory) :
    countCat (l ++ [e]) c = countCat l c + (if e.category == c then 1 else 0) := by
  unfold countCat
  rw [List.filter_append]
  by_cases h : e.category == c <;> simp [h]

/-- A category with no occurrence has count zero. -/
theorem countCat_eq_zero (l : List Event) (cat : EventCategory)
    (h : ¬ cat ∈ l.map Event.category) : countCat l cat = 0 := by
  unfold countCat
  rw [List.filter_eq_nil_iff.mpr, List.length_nil]
  intro x hx
  simp only [beq_iff_eq]
  intro hcon
  exact h (List.mem_map.mpr ⟨x, hx, hcon⟩)

/-- A category that occurs is found before the end of the list. -/
theorem firstIdxCat_lt_length (l : List Event) (cat : EventCategory)
    (h : cat ∈ l.map Event.category) : firstIdxCat l cat < l.length := by
  obtain ⟨x, hx, hcat⟩ := List.mem_map.mp h
  exact List.findIdx_lt_length_of_exists ⟨x, hx, by simp [hcat]⟩

/-- The first occurrence of a category already present is unaffected by
appending further events. -/
theorem firstIdxCat_append_of_mem (l l' : List Event) (cat : EventCategory)
    (h : cat ∈ l.map Event.category) :
    firstIdxCat (l ++ l') cat = firstIdxCat l cat := by
  have h1 : firstIdxCat l cat < l.length := firstIdxCat_lt_length l cat h
  unfold firstIdxCat at h1 ⊢
  rw [List.findIdx_append, if_pos h1]

/-- The first occurrence of a previously absent category appended as the
last event sits at the old length. -/
theorem firstIdxCat_append_of_not_mem (l : List Event) (e : Event)
    (h : ¬ e.category ∈ l.map Event.category) :
    firstIdxCat (l ++ [e]) e.category = l.length := by
  have hall : l.findIdx (fun x => x.category == e.category) = l.length := by
    apply List.findIdx_eq_length.mpr
    intro x hx
    have hne : ¬ x.category = e.category := fun hcon =>
      h (List.mem_map.mpr ⟨x, hx, hcon⟩)
    simpa using hne
  have hlt : ¬ l.findIdx (fun x => x.category == e.category) < l.length := by
    omega
  have h0 : List.findIdx (fun x => x.category == e.category) [e] = 0 := by
    rw [List.findIdx_cons]
    simp
  unfold firstIdxCat
  rw [List.findIdx_append, if_neg hlt, h0]
  omega

/-- Unfolding `categoryCounts` over an appended event. -/
theorem categoryCounts_append (l : List Event) (e : Event) :
    categoryCounts (l ++ [e]) =
      (if (categoryCounts l).any (fun p => p.1 == e.category) then
        (categoryCounts l).map
          (fun p => if p.1 == e.category then (p.1, p.2 + 1) else p)
      else categoryCounts l ++ [(e.category, 1)]) := by
  unfold categoryCounts
  rw [List.foldl_append, List.foldl_cons, List.foldl_nil]

/-- The association list built by `categoryCounts` is faithful to the
members it was folded from: every entry's value is the member count of its
key, the keys are exactly the categories occurring among the members, and
entries are ordered by the first occurrence of their key. -/
theorem categoryCounts_inv (l : List Event) :
    (∀ p ∈ categoryCounts l, p.2 = countCat l p.1) ∧
    (∀ cat : EventCategory,
      cat ∈ l.map Event.category ↔ ∃ q ∈ categoryCounts l, q.1 = cat) ∧
    (∀ (i j : Nat) (p q : EventCategory × Nat), i ≤ j →
      (categoryCounts l)[i]? = some p → (categoryCounts l)[j]? = some q →
      firstIdxCat l p.1 ≤ firstIdxCat l q.1) := by
  induction l using List.reverseRecOn with
  | nil =>
      refine ⟨by simp [categoryCounts], by simp [categoryCounts], ?_⟩
      intro i j p q _ hi _
      simp [categoryCounts] at hi
  | append_singleton l e ih =>
      obtain ⟨ih1, ih2, ih3⟩ := ih
      have hkey : (categoryCounts l).any (fun p => p.1 == e.category) = true ↔
          ∃ p ∈ categoryCounts l, p.1 = e.category := by
        simp [List.any_eq_true]
      by_cases hmem : (categoryCounts l).any (fun p => p.1 == e.category) = true
      · have hCnew : categoryCounts (l ++ [e]) =
            (categoryCounts l).map
              (fun p => if p.1 == e.category then (p.1, p.2 + 1) else p) := by
          rw [categoryCounts_append, if_pos hmem]
        have hgkey : ∀ p : EventCategory × Nat,
            ((fun p => if p.1 == e.category then (p.1, p.2 + 1) else p) p).1 = p.1 := by
          intro p
          by_cases hp : p.1 == e.category <;> simp [hp]
        refine ⟨?_, ?_, ?_⟩
        · intro p' hp'
          rw [hCnew] at hp'
          obtain ⟨p, hp, hgp⟩ := List.mem_map.mp hp'
          subst hgp
          by_cases hpe : (p.1 == e.category) = true
          · have he : (e.category == p.1) = true := by
              rw [beq_iff_eq] at hpe ⊢
              exact hpe.symm
            simp only [hpe, if_true, countCat_append_singleton, he]
            rw [ih1 p hp]
          · have hpef : (p.1 == e.category) = false := by
              exact Bool.not_eq_true _ ▸ (Bool.eq_false_iff.mpr hpe)
            have he : (e.category == p.1) = false := by
              rw [beq_eq_false_iff_ne] at hpef ⊢
              exact fun hcon => hpef hcon.symm
            simp only [hpef, countCat_append_singleton, he]
            simp [ih1 p hp]
            rw [beq_eq_false_iff_ne] at he
            exact he
        · intro cat
          rw [hCnew, List.map_append]
          constructor
          · intro hc
            rcases List.mem_append.mp hc with hc | hc
            · obtain ⟨q, hq, hqk⟩ := (ih2 cat).mp hc
              exact ⟨_, List.mem_map_of_mem _ hq, by rw [hgkey q]; exact hqk⟩
            · simp only [List.map_cons, List.map_nil, List.mem_singleton] at hc
              subst hc
              obtain ⟨p, hp, hpk⟩ := hkey.mp hmem
              exact ⟨_, List.mem_map_of_mem _ hp, by rw [hgkey p]; exact hpk⟩
          · intro hex
            obtain ⟨q', hq', hq'k⟩ := hex
            obtain ⟨q, hq, hgq⟩ := List.mem_map.mp hq'
            apply List.mem_append.mpr
            left
            apply (ih2 cat).mpr
            refine ⟨q, hq, ?_⟩
            rw [← hq'k, ← hgq, hgkey q]
        · intro i j p' q' hij hi hj
          rw [hCnew, List.getElem?_map] at hi hj
          obtain ⟨p, hp, hgp⟩ := Option.map_eq_some'.mp hi
          obtain ⟨q, hq, hgq⟩ := Option.map_eq_some'.mp hj
          have hpk : p'.1 = p.1 := by rw [← hgp, hgkey p]
          have hqk : q'.1 = q.1 := by rw [← hgq, hgkey q]
          have hpmem : p.1 ∈ l.map Event.category :=
            (ih2 p.1).mpr ⟨p, List.getElem?_mem hp, rfl⟩
          have hqmem : q.1 ∈ l.map Event.category :=
            (ih2 q.1).mpr ⟨q, List.getElem?_mem hq, rfl⟩
          rw [hpk, hqk, firstIdxCat_append_of_mem l [e] _ hpmem,
            firstIdxCat_append_of_mem l [e] _ hqmem]
          exact ih3 i j p q hij hp hq
      · have hCnew : categoryCounts (l ++ [e]) =
            categoryCounts l ++ [(e.category, 1)] := by
          rw [categoryCounts_append, if_neg hmem]
        have hnotin : ¬ e.category ∈ l.map Event.category := by
          intro hc
          obtain ⟨q, hq, hqk⟩ := (ih2 e.category).mp hc
          exact hmem (hkey.mpr ⟨q, hq, hqk⟩)
        refine ⟨?_, ?_, ?_⟩
        · intro p' hp'
          rw [hCnew] at hp'
          rcases List.mem_append.mp hp' with hp | hp
          · have hpk : p'.1 ∈ l.map Event.category := (ih2 p'.1).mpr ⟨p', hp, rfl⟩
            have hne : (e.category == p'.1) = false := by
              rw [beq_eq_false_iff_ne]
              intro hcon
              rw [hcon] at hnotin
              exact hnotin hpk
            rw [countCat_append_singleton, hne]
            simp [ih1 p' hp]
          · rw [List.mem_singleton] at hp
            subst hp
            rw [countCat_append_singleton]
            simp [countCat_eq_zero l e.category hnotin]
        · intro cat
          rw [hCnew, List.map_append]
          constructor
          · intro hc
            rcases List.mem_append.mp hc with hc | hc
            · obtain ⟨q, hq, hqk⟩ := (ih2 cat).mp hc
              exact ⟨q, List.mem_append_left _ hq, hqk⟩
            · simp only [List.map_cons, List.map_nil, List.mem_singleton] at hc
              subst hc
              exact ⟨(e.category, 1), List.mem_append_right _ (by simp), rfl⟩
          · intro hex
            obtain ⟨q, hq, hqk⟩ := hex
            rcases List.mem_append.mp hq with hq | hq
            · exact List.mem_append_left _ ((ih2 cat).mpr ⟨q, hq, hqk⟩)
            · rw [List.mem_singleton] at hq
              subst hq
              apply List.mem_append_right
              simp [← hqk]
        · intro i j p' q' hij hi hj
          rw [hCnew] at hi hj
          by_cases hjlen : j < (categoryCounts l).length
          · have hilen : i < (categoryCounts l).length := lt_of_le_of_lt hij hjlen
            rw [List.getElem?_append, if_pos hilen] at hi
            rw [List.getElem?_append, if_pos hjlen] at hj
            have hpmem : p'.1 ∈ l.map Event.category :=
              (ih2 p'.1).mpr ⟨p', List.getElem?_mem hi, rfl⟩
            have hqmem : q'.1 ∈ l.map Event.category :=
              (ih2 q'.1).mpr ⟨q', List.getElem?_mem hj, rfl⟩
            rw [firstIdxCat_append_of_mem l [e] _ hpmem,
              firstIdxCat_append_of_mem l [e] _ hqmem]
            exact ih3 i j p' q' hij hi hj
          · rw [List.getElem?_append, if_neg hjlen] at hj
            have hq' : q' = (e.category, 1) := by
              cases hd : j - (categoryCounts l).length with
              | zero => rw [hd] at hj; simp at hj; exact hj.symm
              | succ n => rw [hd] at hj; simp at hj
            subst hq'
            by_cases hilen : i < (categoryCounts l).length
            · rw [List.getElem?_append, if_pos hilen] at hi
              have hpmem : p'.1 ∈ l.map Event.category :=
                (ih2 p'.1).mpr ⟨p', List.getElem?_mem hi, rfl⟩
              rw [firstIdxCat_append_of_mem l [e] _ hpmem,
                firstIdxCat_append_of_not_mem l e hnotin]
              exact le_of_lt (firstIdxCat_lt_length l _ hpmem)
            · rw [List.getElem?_append, if_neg hilen] at hi
              have hp' : p' = (e.category, 1) := by
                cases hd : i - (categoryCounts l).length with
                | zero => rw [hd] at hi; simp at hi; exact hi.symm
                | succ n => rw [hd] at hi; simp at hi
              subst hp'
              exact le_refl _

/-! ### C6 -/

/-- C6: when a member is added to an existing marker, the recomputed
`primaryCategory` is a category of the new member list whose occurrence
count is maximal, and among the categories tying for the maximal count it
is the one whose first occurrence appears earliest in the marker's member
order (JavaScript records enumerate non-numeric string keys in insertion
order and `Array.prototype.sort` is stable, which the embedding models). -/
theorem primaryCategoryMajorityVote (dist : Coordinates → Coordinates → ℚ)
    (sel : List String) (sc : Option Coordinates) (e : Event) (c : Coordinates)
    (m : ClusteredMarker) :
    (markerUpdateForEvent dist sel sc e c m).primaryCategory ∈
      (m.events ++ [e]).map Event.category ∧
    ∀ cat ∈ (m.events ++ [e]).map Event.category,
      countCat (m.events ++ [e]) cat ≤
        countCat (m.events ++ [e])
          (markerUpdateForEvent dist sel sc e c m).primaryCategory ∧
      (countCat (m.events ++ [e]) cat =
          countCat (m.events ++ [e])
            (markerUpdateForEvent dist sel sc e c m).primaryCategory →
        firstIdxCat (m.events ++ [e])
            (markerUpdateForEvent dist sel sc e c m).primaryCategory ≤
          firstIdxCat (m.events ++ [e]) cat) := by
  obtain ⟨inv1, inv2, inv3⟩ := categoryCounts_inv (m.events ++ [e])
  have hcat : e.category ∈ (m.events ++ [e]).map Event.category := by simp
  have hne : categoryCounts (m.events ++ [e]) ≠ [] := by
    obtain ⟨q, hq, _⟩ := (inv2 e.category).mp hcat
    intro hnil
    rw [hnil] at hq
    exact absurd hq (List.not_mem_nil q)
  obtain ⟨k, mx, hhead, hk, hmax, hfirst⟩ :=
    sortByCountDesc_head_spec (categoryCounts (m.events ++ [e])) hne
  have hpc : (markerUpdateForEvent dist sel sc e c m).primaryCategory = mx.1 := by
    show ((sortByCountDesc (categoryCounts (m.events ++ [e]))).head?.map
        Prod.fst).getD m.primaryCategory = mx.1
    rw [hhead]
    rfl
  have hmxmem : mx ∈ categoryCounts (m.events ++ [e]) := List.getElem?_mem hk
  have hmxval : mx.2 = countCat (m.events ++ [e]) mx.1 := inv1 mx hmxmem
  rw [hpc]
  constructor
  · exact (inv2 mx.1).mpr ⟨mx, hmxmem, rfl⟩
  · intro cat hcatmem
    obtain ⟨q, hq, hqk⟩ := (inv2 cat).mp hcatmem
    obtain ⟨j, hj⟩ := List.mem_iff_getElem?.mp hq
    have hqval : q.2 = countCat (m.events ++ [e]) q.1 := inv1 q hq
    subst hqk
    constructor
    · rw [← hqval, ← hmxval]
      exact hmax j q hj
    · intro htie
      have hq2 : q.2 = mx.2 := by
        rw [hqval, hmxval]
        exact htie
      have hkj : k ≤ j := by
        by_contra hcon
        push_neg at hcon
        exact absurd hq2 (ne_of_lt (hfirst j q hj hcon))
      exact inv3 k j mx q hkj hk hj

/-- A concrete one-member marker holding the origin workshop event. -/
def markerOriginWorkshop : ClusteredMarker :=
  { id := "marker-e2-0", coordinates := ⟨0, 0⟩, events := [evExactOrigin]
    isCluster := false, locationType := LocationType.exact
    primaryCategory := EventCategory.workshop, area := none, isSelected := false }

/-- C6, witness: adding the conference `mission` event to the one-member
workshop marker ties the counts, and the theorem yields the majority-vote
and earliest-first-occurrence facts for the workshop category. -/
theorem primaryCategoryMajorityVoteWitness :
    countCat (markerOriginWorkshop.events ++ [evMissionApprox])
        EventCategory.workshop ≤
      countCat (markerOriginWorkshop.events ++ [evMissionApprox])
        (markerUpdateForEvent distZero [] none evMissionApprox ⟨0, 0⟩
          markerOriginWorkshop).primaryCategory ∧
    (countCat (markerOriginWorkshop.events ++ [evMissionApprox])
        EventCategory.workshop =
      countCat (markerOriginWorkshop.events ++ [evMissionApprox])
        (markerUpdateForEvent distZero [] none evMissionApprox ⟨0, 0⟩
          markerOriginWorkshop).primaryCategory →
      firstIdxCat (markerOriginWorkshop.events ++ [evMissionApprox])
          (markerUpdateForEvent distZero [] none evMissionApprox ⟨0, 0⟩
            markerOriginWorkshop).primaryCategory ≤
        firstIdxCat (markerOriginWorkshop.events ++ [evMissionApprox])
          EventCategory.workshop) :=
  (primaryCategoryMajorityVote distZero [] none evMissionApprox ⟨0, 0⟩
      markerOriginWorkshop).2 EventCategory.workshop (by decide)

/-! ### Support lemmas for C10 -/

/-- `updateFirstMatch` is natural in a translation `g` that respects the
predicate and the update. -/
theorem updateFirstMatch_naturality {α β : Type} (g : α → β) (p : α → Bool)
    (q : β → Bool) (f : α → α) (f' : β → β)
    (hp : ∀ a, q (g a) = p a) (hf : ∀ a, g (f a) = f' (g a)) :
    ∀ l : List α,
      updateFirstMatch q f' (l.map g) =
        (updateFirstMatch p f l).map (fun l' => l'.map g) := by
  intro l
  induction l with
  | nil => rfl
  | cons x xs ih =>
      by_cases h : p x
      · simp [updateFirstMatch, hp, h, hf]
      · simp only [List.map_cons, updateFirstMatch, hp, h, if_false, ih]
        cases updateFirstMatch p f xs <;> simp

/-- Every element of an `updateFirstMatch` result is an original element or
the image of an original element. -/
theorem updateFirstMatch_mem {α : Type} (p : α → Bool) (f : α → α) :
    ∀ (l l' : List α), updateFirstMatch p f l = some l' →
      ∀ x ∈ l', x ∈ l ∨ ∃ y ∈ l, x = f y := by
  intro l
  induction l with
  | nil => intro l' h; simp [updateFirstMatch] at h
  | cons z zs ih =>
      intro l' h x hx
      by_cases hz : p z
      · rw [updateFirstMatch, if_pos hz] at h
        injection h with h
        subst h
        rcases hx with _ | hx
        · exact Or.inr ⟨z, List.mem_cons_self z zs, rfl⟩
        · exact Or.inl (List.mem_cons_of_mem z (by assumption))
      · rw [updateFirstMatch, if_neg hz] at h
        cases hrec : updateFirstMatch p f zs with
        | none => rw [hrec] at h; simp at h
        | some zs' =>
            rw [hrec] at h
            simp only [Option.map_some', Option.some_inj] at h
            subst h
            rcases hx with _ | hx
            · exact Or.inl (List.mem_cons_self z zs)
            · rcases ih zs' hrec x (by assumption) with hin | ⟨y, hy, hxy⟩
              · exact Or.inl (List.mem_cons_of_mem z hin)
              · exact Or.inr ⟨y, List.mem_cons_of_mem z hy, hxy⟩

/-- Blanking the id commutes with the marker-update of a joining event. -/
theorem eraseMarkerId_markerUpdate (dist : Coordinates → Coordinates → ℚ)
    (sel : List String) (sc : Option Coordinates) (e : Event) (c : Coordinates)
    (m : ClusteredMarker) :
    eraseMarkerId (markerUpdateForEvent dist sel sc e c m) =
      markerUpdateForEvent dist sel sc e c (eraseMarkerId m) := rfl

/-- The builder's step with the nondeterministic id blanked at marker
creation: the common image of the step at every clock value. -/
def useEventMarkersStepErased (dist : Coordinates → Coordinates → ℚ)
    (clusterRadius : ℚ) (selectedAreas : List String)
    (selectedCoordinates : Option Coordinates)
    (markers : List ClusteredMarker) (event : Event) : List ClusteredMarker :=
  match getEventCoordinates event with
  | none => markers
  | some coordinates =>
      match updateFirstMatch
          (fun m => areCoordinatesNear dist m.coordinates coordinates clusterRadius)
          (markerUpdateForEvent dist selectedAreas selectedCoordinates event coordinates)
          markers with
      | some ms => ms
      | none =>
          markers ++
            [eraseMarkerId
              (newMarkerForEvent dist selectedAreas selectedCoordinates 0 event coordinates)]

/-- The erased step skips an unresolvable event. -/
theorem useEventMarkersStepErased_resolve_none (dist : Coordinates → Coordinates → ℚ)
    (r : ℚ) (sel : List String) (sc : Option Coordinates)
    (ms : List ClusteredMarker) (e : Event)
    (h : getEventCoordinates e = none) :
    useEventMarkersStepErased dist r sel sc ms e = ms := by
  unfold useEventMarkersStepErased
  rw [h]

/-- The erased step on a resolved event, outer match reduced. -/
theorem useEventMarkersStepErased_resolve_some (dist : Coordinates → Coordinates → ℚ)
    (r : ℚ) (sel : List String) (sc : Option Coordinates)
    (ms : List ClusteredMarker) (e : Event) (c : Coordinates)
    (h : getEventCoordinates e = some c) :
    useEventMarkersStepErased dist r sel sc ms e =
      (match updateFirstMatch
          (fun m => areCoordinatesNear dist m.coordinates c r)
          (markerUpdateForEvent dist sel sc e c) ms with
       | some l => l
       | none =>
          ms ++ [eraseMarkerId (newMarkerForEvent dist sel sc 0 e c)]) := by
  unfold useEventMarkersStepErased
  rw [h]

/-- One builder step, with ids blanked, is the erased step — independent of
the wall clock. -/
theorem useEventMarkersStep_eraseId (dist : Coordinates → Coordinates → ℚ)
    (r : ℚ) (sel : List String) (sc : Option Coordinates) (now : Nat)
    (ms : List ClusteredMarker) (e : Event) :
    (useEventMarkersStep dist r sel sc now ms e).map eraseMarkerId =
      useEventMarkersStepErased dist r sel sc (ms.map eraseMarkerId) e := by
  cases hc : getEventCoordinates e with
  | none =>
      rw [useEventMarkersStep_resolve_none dist r sel sc now ms e hc,
        useEventMarkersStepErased_resolve_none dist r sel sc _ e hc]
  | some c =>
      rw [useEventMarkersStep_resolve_some dist r sel sc now ms e c hc,
        useEventMarkersStepErased_resolve_some dist r sel sc _ e c hc]
      rw [updateFirstMatch_naturality eraseMarkerId
        (fun m => areCoordinatesNear dist m.coordinates c r)
        (fun m => areCoordinatesNear dist m.coordinates c r)
        (markerUpdateForEvent dist sel sc e c)
        (markerUpdateForEvent dist sel sc e c)
        (fun _ => rfl) (fun _ => rfl) ms]
      cases updateFirstMatch
          (fun m => areCoordinatesNear dist m.coordinates c r)
          (markerUpdateForEvent dist sel sc e c) ms with
      | none =>
          simp only [Option.map_none', List.map_append]
          rfl
      | some l => simp

/-! ### C10 -/

/-- C10: marker ids are not a function of the builder's inputs — each id is
the string `marker-<eventId>-<Date.now()>` built from the wall clock at the
call, so calls at different clock values give different ids (shown at a
concrete input) — while the markers with ids blanked are identical across
clock values: order, membership, coordinates, `locationType`,
`primaryCategory` and `isSelected` are determined by the inputs alone. -/
theorem markerIdsNondeterministicRestDeterministic :
    (∀ (dist : Coordinates → Coordinates → ℚ) (r : ℚ) (sel : List String)
      (sc : Option Coordinates) (now1 now2 : Nat) (es : List Event),
      (useEventMarkers dist es r sel sc now1).map eraseMarkerId =
        (useEventMarkers dist es r sel sc now2).map eraseMarkerId) ∧
    (∀ (dist : Coordinates → Coordinates → ℚ) (r : ℚ) (sel : List String)
      (sc : Option Coordinates) (now : Nat) (es : List Event)
      (m : ClusteredMarker), m ∈ useEventMarkers dist es r sel sc now →
      ∃ ev ∈ m.events, m.id = "marker-" ++ ev.id ++ "-" ++ Nat.repr now) ∧
    (useEventMarkers distZero [evExactOrigin] 100 [] none 0).map
        ClusteredMarker.id ≠
      (useEventMarkers distZero [evExactOrigin] 100 [] none 1).map
        ClusteredMarker.id := by
  refine ⟨?_, ?_, by decide⟩
  · intro dist r sel sc now1 now2 es
    suffices h : ∀ (now : Nat) (ms : List ClusteredMarker),
        (List.foldl (useEventMarkersStep dist r sel sc now) ms es).map eraseMarkerId =
          List.foldl (useEventMarkersStepErased dist r sel sc) (ms.map eraseMarkerId) es by
      have h1 := h now1 []
      have h2 := h now2 []
      unfold useEventMarkers
      rw [h1, h2]
    induction es with
    | nil => intro now ms; rfl
    | cons e es ihe =>
        intro now ms
        rw [List.foldl_cons, List.foldl_cons, ihe now,
          useEventMarkersStep_eraseId dist r sel sc now ms e]
  · intro dist r sel sc now es
    induction es using List.reverseRecOn with
    | nil =>
        intro m hm
        simp [useEventMarkers] at hm
    | append_singleton es e ihe =>
        intro m hm
        have hstep : useEventMarkers dist (es ++ [e]) r sel sc now =
            useEventMarkersStep dist r sel sc now
              (useEventMarkers dist es r sel sc now) e := by
          unfold useEventMarkers
          rw [List.foldl_append, List.foldl_cons, List.foldl_nil]
        rw [hstep] at hm
        cases hc : getEventCoordinates e with
        | none =>
            rw [useEventMarkersStep_resolve_none dist r sel sc now _ e hc] at hm
            exact ihe m hm
        | some c =>
            rw [useEventMarkersStep_resolve_some dist r sel sc now _ e c hc] at hm
            cases hupd : updateFirstMatch
                (fun mk => areCoordinatesNear dist mk.coordinates c r)
                (markerUpdateForEvent dist sel sc e c)
                (useEventMarkers dist es r sel sc now) with
            | some l =>
                rw [hupd] at hm
                rcases updateFirstMatch_mem _ _ _ _ hupd m hm with hin | ⟨y, hy, hxy⟩
                · exact ihe m hin
                · obtain ⟨ev, hev, hid⟩ := ihe y hy
                  subst hxy
                  exact ⟨ev, by
                    simp only [markerUpdateForEvent, List.mem_append]
                    exact Or.inl hev, hid⟩
            | none =>
                rw [hupd] at hm
                rcases List.mem_append.mp hm with hin | hnew
                · exact ihe m hin
                · rw [List.mem_singleton] at hnew
                  subst hnew
                  exact ⟨e, by simp [newMarkerForEvent], rfl⟩

/-- C10, witness: the id-template conjunct applied to the single marker
built from the origin event at clock value 5. -/
theorem markerIdsWitness :
    ∃ ev ∈ (newMarkerForEvent distZero [] none 5 evExactOrigin ⟨0, 0⟩).events,
      (newMarkerForEvent distZero [] none 5 evExactOrigin ⟨0, 0⟩).id =
        "marker-" ++ ev.id ++ "-" ++ Nat.repr 5 :=
  markerIdsNondeterministicRestDeterministic.2.1 distZero 100 [] none 5
    [evExactOrigin]
    (newMarkerForEvent distZero [] none 5 evExactOrigin ⟨0, 0⟩)
    (by decide)

end BurningEvents
